import Mathlib

/-!
Verification of the change-detection subsystem of the Strata workspace
(src/src-tauri/src/lib.rs): document classifier, workspace scanner,
write-guard and filesystem-watcher pipeline.

File contents are modelled as lists of characters, filesystem paths as
lists of name components, and the reachable part of the disk as an
explicit directory tree (for the scanner) or as a partial map from paths
to contents (for the classifier and the watcher).  Fallible reads are
Option values; fallible operations return Except.
-/

namespace Strata

/- ── Rust string primitives used by is_strata_file ── -/

/-- Characters of Rust's char::is_whitespace (the Unicode White_Space set),
used by str::trim. -/
def rustIsWs (c : Char) : Bool :=
  let n := c.toNat
  n == 9 || n == 10 || n == 11 || n == 12 || n == 13 || n == 32 ||
  n == 133 || n == 160 || n == 0x1680 ||
  (decide (0x2000 ≤ n) && decide (n ≤ 0x200A)) ||
  n == 0x2028 || n == 0x2029 || n == 0x202F || n == 0x205F || n == 0x3000

/-- Rust str::trim: remove whitespace from both ends. -/
def rustTrim (l : List Char) : List Char :=
  ((l.dropWhile rustIsWs).reverse.dropWhile rustIsWs).reverse

/-- One line of Rust str::lines: a single trailing carriage return is stripped. -/
def stripCr (l : List Char) : List Char :=
  if l.getLast? == some '\r' then l.dropLast else l

/-- Rust str::lines: split on newline; a trailing newline does not produce a
final empty line; each line loses at most one trailing carriage return. -/
def rustLines (s : List Char) : List (List Char) :=
  let parts := s.splitOn '\n'
  let parts2 := if s.getLast? == some '\n' || s.isEmpty then parts.dropLast else parts
  parts2.map stripCr

/-- Rust str::find for a fixed pattern: index of the first occurrence of
pat as a contiguous sublist, if any. -/
def findSub (pat : List Char) : List Char → Option Nat
  | [] => if pat.isPrefixOf ([] : List Char) then some 0 else none
  | c :: rest =>
    if pat.isPrefixOf (c :: rest) then some 0
    else (findSub pat rest).map fun i => i + 1

/- ── Document classifier (is_strata_file) ── -/

/-- The plain document-type marker. -/
def markerPlain : List Char := "doc-type: strata".data

/-- The quoted document-type marker. -/
def markerQuoted : List Char := "doc-type: \"strata\"".data

/-- The closure passed to frontmatter.lines().any in is_strata_file:
the line, whitespace-trimmed, equals one of the two marker forms. -/
def isMarkerLine (line : List Char) : Bool :=
  rustTrim line == markerPlain || rustTrim line == markerQuoted

/-- The opening-delimiter test of is_strata_file: content starts with
three dashes and a newline, in either line-ending convention. -/
def hasOpenDelim (content : List Char) : Bool :=
  "---\n".data.isPrefixOf content || "---\r\n".data.isPrefixOf content

/-- The after_first offset of is_strata_file. -/
def afterFirstLen (content : List Char) : Nat :=
  if "---\r\n".data.isPrefixOf content then 5 else 4

/-- content with the opening delimiter line removed, the slice
content[after_first..] of is_strata_file. -/
def restAfterOpen (content : List Char) : List Char :=
  content.drop (afterFirstLen content)

/-- The content scan of is_strata_file: require the opening delimiter,
find the first occurrence of newline-dash-dash-dash in the remainder,
and look for a marker line in the text before that occurrence. -/
def isStrataContent (content : List Char) : Bool :=
  if hasOpenDelim content then
    match findSub "\n---".data (restAfterOpen content) with
    | some e => (rustLines ((restAfterOpen content).take e)).any isMarkerLine
    | none => false
  else false

/-- is_strata_file: fs::read_to_string may fail (none); any failure
degrades to false, otherwise the content scan decides. -/
def is_strata_file (readResult : Option String) : Bool :=
  match readResult with
  | none => false
  | some c => isStrataContent c.data

/- ── Spec reading of the closing delimiter, for comparison ──
The spec describes the closing delimiter as a LINE consisting of three
dashes preceded by a newline; these definitions follow the spec words. -/

/-- Spec reading: the lines of the content after the opening line. -/
def specLinesAfterFirst (content : List Char) : List (List Char) :=
  (rustLines content).drop 1

/-- Spec reading: the content contains a closing delimiter line, i.e. a
line other than the first consisting exactly of three dashes. -/
def specHasClosing (content : List Char) : Bool :=
  (specLinesAfterFirst content).any (fun l => l == "---".data)

/-- Spec reading: index (among the lines after the first) of the first
closing delimiter line. -/
def specFirstClosing (content : List Char) : Option Nat :=
  (specLinesAfterFirst content).findIdx? (fun l => l == "---".data)

/-- Spec reading: some line strictly between the opening line and the
first closing delimiter line carries the document-type marker. -/
def specMarkerBetween (content : List Char) : Bool :=
  match specFirstClosing content with
  | some j => ((specLinesAfterFirst content).take j).any isMarkerLine
  | none => false

/- ── Directory-skip policy and workspace scanner ── -/

/-- Rust name.starts_with a dot (char pattern, i.e. first character test). -/
def strHeadDot (name : String) : Bool := name.data.head? == some '.'

/-- Rust name.ends_with a dot-m-d suffix. -/
def strEndsMd (name : String) : Bool := ".md".data.isSuffixOf name.data

/-- should_skip_dir: hidden names and the fixed deny-list. -/
def should_skip_dir (name : String) : Bool :=
  strHeadDot name || name == "node_modules" || name == "target" || name == "__pycache__"

/-- The file filter of walk_dir: managed extension, not hidden, and the
classifier accepts the file's content (none models an unreadable file). -/
def keepFile (name : String) (content : Option String) : Bool :=
  strEndsMd name && !strHeadDot name && is_strata_file content

mutual
/-- An entry of the modelled directory tree: a file with its (possibly
unreadable) content, or a directory whose listing may itself be
unreadable (readable = false). -/
inductive Entry where
  | file (name : String) (content : Option String)
  | dir (name : String) (readable : Bool) (sub : Entries)

/-- A directory listing, in the iteration order fs::read_dir yields. -/
inductive Entries where
  | nil
  | cons (e : Entry) (rest : Entries)
end

/-- walk_dir: depth-first descent accumulating, per kept file, its list of
name components relative to the base; pre is the component prefix of the
directory being listed.  An unreadable directory that is not skipped is a
fatal error, exactly as fs::read_dir's error is propagated. -/
def walkEntries (pre : List String) (es : Entries) : Except String (List (List String)) :=
  match es with
  | .nil => .ok []
  | .cons (.file name c) rest =>
    match walkEntries pre rest with
    | .error msg => .error msg
    | .ok b => .ok (if keepFile name c then (pre ++ [name]) :: b else b)
  | .cons (.dir name readable sub) rest =>
    if should_skip_dir name then
      walkEntries pre rest
    else if readable then
      match walkEntries (pre ++ [name]) sub with
      | .error msg => .error msg
      | .ok a =>
        match walkEntries pre rest with
        | .error msg => .error msg
        | .ok b => .ok (a ++ b)
    else .error (name ++ ": cannot read directory")

/-- Replace a backslash by a forward slash, the character map of
replace in walk_dir. -/
def deBack (c : Char) : Char := if c == '\\' then '/' else c

/-- Join path components with the host path separator, the string the OS
path type renders for a relative path. -/
def joinComps (sep : Char) : List String → List Char
  | [] => []
  | [n] => n.data
  | n :: rest => n.data ++ sep :: joinComps sep rest

/-- A workspace-relative path as walk_dir records it: components joined
with the host separator, then every backslash replaced by a slash. -/
def relPathString (sep : Char) (comps : List String) : String :=
  String.mk ((joinComps sep comps).map deBack)

/-- list_workspace_files: walk the root (none models an unreadable root
directory), render each found component list, sort.  Rust's Vec::sort on
String is total, transitive and antisymmetric, so its output is the one
sorted arrangement of the collected paths; insertionSort computes it. -/
def list_workspace_files (sep : Char) (root : Option Entries) : Except String (List String) :=
  match root with
  | none => .error "cannot read workspace directory"
  | some es =>
    match walkEntries [] es with
    | .error msg => .error msg
    | .ok comps =>
      .ok (List.insertionSort (fun a b : String => a ≤ b) (comps.map (relPathString sep)))

/-- Some directory that the traversal would have to list (i.e. not
excluded by the skip policy) is unreadable. -/
def hasUnreadable : Entries → Bool
  | .nil => false
  | .cons (.file _ _) rest => hasUnreadable rest
  | .cons (.dir name readable sub) rest =>
    (!should_skip_dir name && (!readable || hasUnreadable sub)) || hasUnreadable rest

/- ── Write-guard ── -/

/-- An absolute path, as its list of components. -/
abbrev AbsPath := List String

/-- mark_file_write: insert the path into the write-guard set. -/
def mark_file_write (g : Finset AbsPath) (p : AbsPath) : Finset AbsPath :=
  insert p g

/-- HashSet::remove as the watcher uses it: report whether the path was
present, and the set with the path removed. -/
def consume (g : Finset AbsPath) (p : AbsPath) : Bool × Finset AbsPath :=
  (decide (p ∈ g), g.erase p)

/- ── Watcher pipeline ── -/

/-- The raw notification kinds the pipeline branches on; access stands
for every kind that is neither creation, modification nor removal. -/
inductive RawKind where
  | create | modify | remove | access

/-- The emitted domain events. -/
inductive DomainEvent where
  | created (relPath : String)
  | modified (relPath : String)
  | deleted (relPath : String)
deriving DecidableEq

/-- The per-path body of the watcher callback: filename pre-filter,
inside-root and skip-component check, write-guard consumption, then the
branch on the raw kind; fs is the current disk content by absolute path.
Returns the event emitted (if any) and the write-guard set afterward. -/
def processPath (sep : Char) (fs : AbsPath → Option String) (watchDir : AbsPath)
    (g : Finset AbsPath) (kind : RawKind) (path : AbsPath) :
    Option DomainEvent × Finset AbsPath :=
  match path.getLast? with
  | none => (none, g)
  | some name =>
    if !strEndsMd name || strHeadDot name then (none, g)
    else if watchDir.isPrefixOf path then
      let rel := path.drop watchDir.length
      if rel.any should_skip_dir then (none, g)
      else
        let hit := consume g path
        if hit.1 then (none, hit.2)
        else
          let relPath := relPathString sep rel
          match kind with
          | .create => (if is_strata_file (fs path) then some (.created relPath) else none, g)
          | .modify => (if is_strata_file (fs path) then some (.modified relPath) else none, g)
          | .remove => (some (.deleted relPath), g)
          | .access => (none, g)
    else (none, g)

/- ── Watch session state machine ── -/

/-- The watcher slot: None is Idle, some root is Watching that root.
Dropping releases whatever session was held. -/
def dropSession (_st : Option String) : Option String := none

/-- start_watching: the existing watcher is dropped first; then watcher
creation and the recursive watch call may each fail, leaving no session;
on success the new session is stored. -/
def start_watching (prev : Option String) (root : String)
    (createOk watchOk : Bool) : Except String Unit × Option String :=
  let cleared := dropSession prev
  if !createOk then (.error "recommended_watcher failed", cleared)
  else if !watchOk then (.error "watch failed", cleared)
  else (.ok (), some root)

/-- stop_watching: drop whatever session is held. -/
def stop_watching (_st : Option String) : Option String := none

/- ── Concrete instances used in counterexamples and witnesses ── -/

/-- Content with no line beyond the first consisting of three dashes, but
with a four-dash line that the substring scan nevertheless matches. -/
def cexClosing : List Char := "---\ndoc-type: strata\n----".data

/-- A well-formed managed document. -/
def goodDoc : String := "---\ndoc-type: strata\n---\nbody\n"

/-- The scenario workspace: notes/a.md qualifying, notes/.hidden/b.md
qualifying but inside a hidden directory. -/
def demoWorkspace : Entries :=
  .cons (.dir "notes" true
    (.cons (.file "a.md" (some goodDoc))
      (.cons (.dir ".hidden" true (.cons (.file "b.md" (some goodDoc)) .nil)) .nil))) .nil

/-- A workspace whose data directory cannot be listed. -/
def unreadableWorkspace : Entries :=
  .cons (.dir "data" false .nil) .nil

/-- A one-file disk used by the watcher witnesses. -/
def demoFs : AbsPath → Option String :=
  fun p => if p == ["ws", "a.md"] then some goodDoc else none

/- ═══ Theorems ═══ -/

/-- C1 (counterexample): cexClosing contains no closing delimiter line —
no line beyond the first consists of three dashes — so the claim demands
the Classifier return false on it; the Classifier returns true, because
its scan matches the newline-dash-dash-dash prefix of the four-dash line. -/
theorem classifier_closing_line_counterexample :
    ¬ (specHasClosing cexClosing = false → isStrataContent cexClosing = false) := by
  decide

/-- C1 (amended): for content starting with an opening delimiter line, the
scanned block ends at the first occurrence of a newline followed by three
dashes — not necessarily a whole line of three dashes.  If such an
occurrence exists and some line strictly before it trims to the
document-type marker, the Classifier returns true; if no such occurrence
exists, it returns false regardless of body content. -/
theorem classifier_amended_frontmatter_scan (content : List Char)
    (hopen : hasOpenDelim content = true) :
    (∀ e, findSub "\n---".data (restAfterOpen content) = some e →
       (∃ l ∈ rustLines ((restAfterOpen content).take e), isMarkerLine l = true) →
       isStrataContent content = true)
  ∧ (findSub "\n---".data (restAfterOpen content) = none →
       isStrataContent content = false) := by
  constructor
  · intro e he hl
    simp only [isStrataContent, hopen, if_true, he]
    exact List.any_eq_true.mpr hl
  · intro he
    simp [isStrataContent, hopen, he]

/-- C1 (witness): the amended claim applied to a well-formed document. -/
theorem classifier_amended_frontmatter_scan_witness :
    isStrataContent goodDoc.data = true :=
  (classifier_amended_frontmatter_scan goodDoc.data (by decide)).1 16 (by decide)
    ⟨"doc-type: strata".data, by decide, by decide⟩

/-- C4: marking is idempotent; a single consume after a mark reports true
and leaves the path absent from the guard; a second consume with no
intervening mark reports false. -/
theorem write_guard_mark_consume (g : Finset AbsPath) (p : AbsPath) :
    mark_file_write (mark_file_write g p) p = mark_file_write g p
  ∧ (consume (mark_file_write g p) p).1 = true
  ∧ p ∉ (consume (mark_file_write g p) p).2
  ∧ (consume ((consume (mark_file_write g p) p).2) p).1 = false := by
  refine ⟨Finset.insert_idem p g, ?_, ?_, ?_⟩ <;>
    simp [mark_file_write, consume]

/-- C5: start_watching's outcome is independent of any previous session
(the handle is dropped first); success stores the new root, failure of
either watcher creation or the recursive watch leaves no session and
surfaces an error; stop_watching from either state leaves no session. -/
theorem watch_session_state_machine (prev : Option String) (root : String)
    (createOk watchOk : Bool) :
    start_watching prev root createOk watchOk = start_watching none root createOk watchOk
  ∧ (createOk = true → watchOk = true →
      start_watching prev root createOk watchOk = (.ok (), some root))
  ∧ (createOk = false ∨ watchOk = false →
      ∃ msg, start_watching prev root createOk watchOk = (.error msg, none))
  ∧ stop_watching (some root) = none
  ∧ stop_watching none = none := by
  refine ⟨rfl, ?_, ?_, rfl, rfl⟩
  · intro hc hw
    subst hc; subst hw; rfl
  · rintro (h | h) <;> subst h
    · exact ⟨"recommended_watcher failed", rfl⟩
    · cases createOk
      · exact ⟨"recommended_watcher failed", rfl⟩
      · exact ⟨"watch failed", rfl⟩

/-- C5 (witness): a successful restart over a previous session. -/
theorem watch_session_state_machine_witness :
    start_watching (some "oldRoot") "newRoot" true true = (.ok (), some "newRoot") :=
  (watch_session_state_machine (some "oldRoot") "newRoot" true true).2.1 rfl rfl

/-- C9: a failed read classifies as false; an unreadable file never aborts
a scan (the walk is unchanged by it); and in the watcher pipeline an
unreadable file yields no Created or Modified event, for every guard
state, root and kind branch reached. -/
theorem classifier_read_failure_false :
    is_strata_file none = false
  ∧ (∀ pre name rest, walkEntries pre (.cons (.file name none) rest) = walkEntries pre rest)
  ∧ (∀ sep fs watchDir g path, fs path = none →
      (processPath sep fs watchDir g .create path).1 = none
      ∧ (processPath sep fs watchDir g .modify path).1 = none) := by
  refine ⟨rfl, ?_, ?_⟩
  · intro pre name rest
    cases hw : walkEntries pre rest <;>
      simp [walkEntries, keepFile, is_strata_file, hw]
  · intro sep fs watchDir g path hfs
    have hc : is_strata_file (fs path) = false := by rw [hfs]; rfl
    constructor <;>
    · simp only [processPath]
      split
      · rfl
      · split <;> try rfl
        split <;> try rfl
        split <;> try rfl
        split <;> simp [hc]

/-- C2: once a creation or modification notification has passed the
filename pre-filter, the inside-root and skip-component check, and the
write-guard check, the event is emitted exactly when the file's current
content classifies as a managed document; a non-qualifying file yields
no event. -/
theorem watcher_create_modify_iff_classified
    (sep : Char) (fs : AbsPath → Option String) (watchDir : AbsPath)
    (g : Finset AbsPath) (path : AbsPath) (name : String)
    (hname : path.getLast? = some name)
    (hmd : strEndsMd name = true)
    (hdot : strHeadDot name = false)
    (hroot : watchDir.isPrefixOf path = true)
    (hskip : (path.drop watchDir.length).any should_skip_dir = false)
    (hguard : path ∉ g) :
    ((processPath sep fs watchDir g .create path).1
        = some (.created (relPathString sep (path.drop watchDir.length)))
      ↔ is_strata_file (fs path) = true)
  ∧ (is_strata_file (fs path) = false →
      (processPath sep fs watchDir g .create path).1 = none)
  ∧ ((processPath sep fs watchDir g .modify path).1
        = some (.modified (relPathString sep (path.drop watchDir.length)))
      ↔ is_strata_file (fs path) = true)
  ∧ (is_strata_file (fs path) = false →
      (processPath sep fs watchDir g .modify path).1 = none) := by
  simp only [processPath, hname, hmd, hdot, hroot, hskip, consume, hguard]
  cases hc : is_strata_file (fs path) <;> simp [hc]

/-- C2 (witness): a qualifying created file is reported, a missing
modified file is not. -/
theorem watcher_create_modify_iff_classified_witness :
    (processPath '/' demoFs ["ws"] ∅ .create ["ws", "a.md"]).1
        = some (.created "a.md")
  ∧ (processPath '/' demoFs ["ws"] ∅ .modify ["ws", "gone.md"]).1 = none := by
  constructor
  · exact (watcher_create_modify_iff_classified '/' demoFs ["ws"] ∅ ["ws", "a.md"] "a.md"
      rfl (by decide) (by decide) (by decide) (by decide) (by decide)).1.mpr (by decide)
  · exact (watcher_create_modify_iff_classified '/' demoFs ["ws"] ∅ ["ws", "gone.md"] "gone.md"
      rfl (by decide) (by decide) (by decide) (by decide) (by decide)).2.2.2 (by decide)

/-- C3: a removal notification that passes the filename pre-filter, the
inside-root and skip-component check, and the write-guard check emits the
Deleted event unconditionally: the same event for every possible disk
content, so the file is neither read nor classified. -/
theorem watcher_remove_always_deleted
    (sep : Char) (watchDir : AbsPath)
    (g : Finset AbsPath) (path : AbsPath) (name : String)
    (hname : path.getLast? = some name)
    (hmd : strEndsMd name = true)
    (hdot : strHeadDot name = false)
    (hroot : watchDir.isPrefixOf path = true)
    (hskip : (path.drop watchDir.length).any should_skip_dir = false)
    (hguard : path ∉ g) :
    ∀ fs : AbsPath → Option String,
      processPath sep fs watchDir g .remove path
        = (some (.deleted (relPathString sep (path.drop watchDir.length))), g) := by
  intro fs
  simp [processPath, hname, hmd, hdot, hroot, hskip, consume, hguard]

/-- C3 (witness): a removed file whose content is gone from the disk is
still reported deleted. -/
theorem watcher_remove_always_deleted_witness :
    processPath '/' demoFs ["ws"] ∅ .remove ["ws", "gone.md"]
      = (some (.deleted "gone.md"), ∅) :=
  watcher_remove_always_deleted '/' ["ws"] ∅ ["ws", "gone.md"] "gone.md"
    rfl (by decide) (by decide) (by decide) (by decide) (by decide) demoFs

/-- C10: the guard entry is consumed before the kind is examined: a raw
notification of a kind that emits nothing (access) still removes a marked
path from the guard, leaves the path absent, and the next notification
for that path is treated as external — a subsequent qualifying
modification is emitted. -/
theorem guard_consumed_before_kind
    (sep : Char) (fs : AbsPath → Option String) (watchDir : AbsPath)
    (g : Finset AbsPath) (path : AbsPath) (name : String)
    (hname : path.getLast? = some name)
    (hmd : strEndsMd name = true)
    (hdot : strHeadDot name = false)
    (hroot : watchDir.isPrefixOf path = true)
    (hskip : (path.drop watchDir.length).any should_skip_dir = false)
    (hguard : path ∈ g) :
    processPath sep fs watchDir g .access path = (none, g.erase path)
  ∧ path ∉ g.erase path
  ∧ (∀ fs2 : AbsPath → Option String, is_strata_file (fs2 path) = true →
      processPath sep fs2 watchDir (g.erase path) .modify path
        = (some (.modified (relPathString sep (path.drop watchDir.length))), g.erase path)) := by
  refine ⟨?_, Finset.not_mem_erase path g, ?_⟩
  · simp [processPath, hname, hmd, hdot, hroot, hskip, consume, hguard]
  · intro fs2 hc
    simp [processPath, hname, hmd, hdot, hroot, hskip, consume,
      Finset.not_mem_erase path g, hc]

/-- C10 (witness): an access notification for a marked path consumes the
mark; the following modification is emitted. -/
theorem guard_consumed_before_kind_witness :
    processPath '/' demoFs ["ws"] {["ws", "a.md"]} .access ["ws", "a.md"]
      = (none, Finset.erase {["ws", "a.md"]} ["ws", "a.md"])
  ∧ processPath '/' demoFs ["ws"] (Finset.erase {["ws", "a.md"]} ["ws", "a.md"]) .modify ["ws", "a.md"]
      = (some (.modified "a.md"), Finset.erase {["ws", "a.md"]} ["ws", "a.md"]) := by
  have h := guard_consumed_before_kind '/' demoFs ["ws"] {["ws", "a.md"]} ["ws", "a.md"] "a.md"
    rfl (by decide) (by decide) (by decide) (by decide) (by decide)
  exact ⟨h.1, h.2.2 demoFs (by decide)⟩

/-- Helper: a walk that reaches (does not skip) an unreadable directory
fails. -/
theorem walkEntries_error_of_hasUnreadable :
    ∀ pre es, hasUnreadable es = true → ∃ msg, walkEntries pre es = .error msg := by
  intro pre es
  induction pre, es using walkEntries.induct with
  | case1 pre =>
    intro h; simp [hasUnreadable] at h
  | case2 pre name content rest msg herr _ih =>
    intro _h; exact ⟨msg, by simp [walkEntries, herr]⟩
  | case3 pre name content rest b hok ih =>
    intro h
    obtain ⟨msg, hmsg⟩ := ih (by simpa [hasUnreadable] using h)
    rw [hok] at hmsg; cases hmsg
  | case4 pre name readable sub rest hskip ih =>
    intro h
    obtain ⟨msg, hm⟩ := ih (by simpa [hasUnreadable, hskip] using h)
    exact ⟨msg, by simp [walkEntries, hskip, hm]⟩
  | case5 pre name sub rest hns msg herr _ihsub =>
    intro _h; exact ⟨msg, by simp [walkEntries, hns, herr]⟩
  | case6 pre name sub rest hns b hsub msg herr _ihsub _ihrest =>
    intro _h; exact ⟨msg, by simp [walkEntries, hns, hsub, herr]⟩
  | case7 pre name sub rest hns bs hsub br hrest ihsub ihrest =>
    intro h
    have h2 : hasUnreadable sub = true ∨ hasUnreadable rest = true := by
      simpa [hasUnreadable, hns] using h
    rcases h2 with h2 | h2
    · obtain ⟨msg, hm⟩ := ihsub h2
      rw [hsub] at hm; cases hm
    · obtain ⟨msg, hm⟩ := ihrest h2
      rw [hrest] at hm; cases hm
  | case8 pre name readable sub rest hns hnr =>
    intro _h
    cases readable with
    | true => exact absurd rfl hnr
    | false => exact ⟨name ++ ": cannot read directory", by simp [walkEntries, hns]⟩

/-- C6: whenever any directory that the traversal reaches (the skip policy
does not exclude it) cannot be listed — including the root itself — the
scan returns an error and no listing is returned to the caller. -/
theorem scanner_unreadable_dir_errors (sep : Char) (root : Option Entries)
    (hbad : root = none ∨ ∃ es, root = some es ∧ hasUnreadable es = true) :
    ∃ msg, list_workspace_files sep root = .error msg
      ∧ ∀ l, list_workspace_files sep root ≠ .ok l := by
  rcases hbad with rfl | ⟨es, rfl, hbad⟩
  · exact ⟨"cannot read workspace directory", rfl, by simp [list_workspace_files]⟩
  · obtain ⟨msg, hm⟩ := walkEntries_error_of_hasUnreadable [] es hbad
    exact ⟨msg, by simp [list_workspace_files, hm], by simp [list_workspace_files, hm]⟩

/-- C6 (witness): a workspace with an unreadable, non-skipped directory. -/
theorem scanner_unreadable_dir_errors_witness :
    ∃ msg, list_workspace_files '/' (some unreadableWorkspace) = .error msg
      ∧ ∀ l, list_workspace_files '/' (some unreadableWorkspace) ≠ .ok l :=
  scanner_unreadable_dir_errors '/' (some unreadableWorkspace)
    (Or.inr ⟨unreadableWorkspace, rfl, by decide⟩)

/-- Helper: a file the walk keeps never has a skip-policy name: it cannot
be hidden, and the deny-list names do not carry the managed extension. -/
theorem skip_eq_false_of_keepFile (name : String) (c : Option String)
    (h : keepFile name c = true) : should_skip_dir name = false := by
  simp only [keepFile, Bool.and_eq_true, Bool.not_eq_true'] at h
  obtain ⟨⟨hmd, hdot⟩, _⟩ := h
  have h1 : name ≠ "node_modules" := by rintro rfl; exact absurd hmd (by decide)
  have h2 : name ≠ "target" := by rintro rfl; exact absurd hmd (by decide)
  have h3 : name ≠ "__pycache__" := by rintro rfl; exact absurd hmd (by decide)
  simp [should_skip_dir, hdot, h1, h2, h3]

/-- Helper: every component list a successful walk returns extends the
prefix of the directory being walked by components none of which the skip
policy would exclude. -/
theorem walkEntries_ok_comps_clean :
    ∀ pre es comps, walkEntries pre es = .ok comps →
      ∀ p ∈ comps, ∃ suf, p = pre ++ suf ∧ ∀ s ∈ suf, should_skip_dir s = false := by
  intro pre es
  induction pre, es using walkEntries.induct with
  | case1 pre =>
    intro comps hok p hp
    simp only [walkEntries, Except.ok.injEq] at hok
    subst hok; simp at hp
  | case2 pre name content rest msg herr _ih =>
    intro comps hok
    simp [walkEntries, herr] at hok
  | case3 pre name content rest b hok3 ih =>
    intro comps hok p hp
    simp only [walkEntries, hok3, Except.ok.injEq] at hok
    subst hok
    by_cases hk : keepFile name content = true
    · rw [if_pos hk] at hp
      rcases List.mem_cons.mp hp with rfl | hpb
      · refine ⟨[name], rfl, ?_⟩
        intro s hs
        rw [List.mem_singleton.mp hs]
        exact skip_eq_false_of_keepFile name content hk
      · exact ih b hok3 p hpb
    · rw [if_neg hk] at hp
      exact ih b hok3 p hp
  | case4 pre name readable sub rest hskip ih =>
    intro comps hok p hp
    simp only [walkEntries, hskip, if_true] at hok
    exact ih comps hok p hp
  | case5 pre name sub rest hns msg herr _ihsub =>
    intro comps hok
    simp [walkEntries, hns, herr] at hok
  | case6 pre name sub rest hns bs hsub msg herr _ihsub _ihrest =>
    intro comps hok
    simp [walkEntries, hns, hsub, herr] at hok
  | case7 pre name sub rest hns bs hsub br hrest ihsub ihrest =>
    intro comps hok p hp
    simp only [walkEntries, hns, hsub, hrest] at hok
    simp only [Bool.false_eq_true, if_false, if_true, Except.ok.injEq] at hok
    subst hok
    rcases List.mem_append.mp hp with hpa | hpb
    · obtain ⟨suf, rfl, hclean⟩ := ihsub bs hsub p hpa
      refine ⟨name :: suf, by simp, ?_⟩
      intro s hs
      rcases List.mem_cons.mp hs with rfl | hs2
      · simpa using hns
      · exact hclean s hs2
    · exact ihrest br hrest p hpb
  | case8 pre name readable sub rest hns hnr =>
    intro comps hok
    cases readable with
    | true => exact absurd rfl hnr
    | false => simp [walkEntries, hns] at hok

/-- C7: the scanner never descends into a directory the skip policy
excludes (the walk is unchanged whatever such a directory contains, even
if it is unreadable); no returned path has a component the skip policy
excludes; and on the scenario workspace the listing is exactly
notes/a.md. -/
theorem scanner_skips_denied_dirs :
    (∀ pre name readable sub rest, should_skip_dir name = true →
       walkEntries pre (.cons (.dir name readable sub) rest) = walkEntries pre rest)
  ∧ (∀ es comps, walkEntries [] es = .ok comps →
       ∀ p ∈ comps, ∀ s ∈ p, should_skip_dir s = false)
  ∧ list_workspace_files '/' (some demoWorkspace) = .ok ["notes/a.md"] := by
  refine ⟨?_, ?_, rfl⟩
  · intro pre name readable sub rest h
    simp [walkEntries, h]
  · intro es comps hok p hp s hs
    obtain ⟨suf, rfl, hclean⟩ := walkEntries_ok_comps_clean [] es comps hok p hp
    exact hclean s (by simpa using hs)

/-- C7 (witness): a deny-listed unreadable directory is never entered, and
the surviving scenario path has no skip-policy component. -/
theorem scanner_skips_denied_dirs_witness :
    walkEntries [] (.cons (.dir "node_modules" false .nil) .nil) = walkEntries [] .nil
  ∧ should_skip_dir "notes" = false := by
  constructor
  · exact scanner_skips_denied_dirs.1 [] "node_modules" false .nil .nil (by decide)
  · exact scanner_skips_denied_dirs.2.1 demoWorkspace [["notes", "a.md"]] rfl
      ["notes", "a.md"] (by decide) "notes" (by decide)

/-- Helper: the backslash replacement never outputs a backslash. -/
theorem deBack_ne_backslash (c : Char) : deBack c ≠ '\\' := by
  unfold deBack
  split
  · decide
  · next h =>
    intro hc
    exact h (by rw [hc]; decide)

/-- Helper: no character of a rendered relative path is a backslash. -/
theorem relPathString_no_backslash (sep : Char) (comps : List String) :
    ∀ c ∈ (relPathString sep comps).data, c ≠ '\\' := by
  intro c hc
  have hc2 : c ∈ (joinComps sep comps).map deBack := hc
  obtain ⟨a, _, rfl⟩ := List.mem_map.mp hc2
  exact deBack_ne_backslash a

/-- C8: every listing the scanner returns is sorted in the lexicographic
string order, and no returned path contains a backslash, whatever the
host path separator was. -/
theorem scanner_sorted_slash_normalized (sep : Char) (root : Option Entries)
    (l : List String) (hok : list_workspace_files sep root = .ok l) :
    List.Sorted (fun a b : String => a ≤ b) l
  ∧ ∀ p ∈ l, ∀ c ∈ p.data, c ≠ '\\' := by
  cases root with
  | none => simp [list_workspace_files] at hok
  | some es =>
    cases hw : walkEntries [] es with
    | error msg => simp [list_workspace_files, hw] at hok
    | ok comps =>
      simp only [list_workspace_files, hw, Except.ok.injEq] at hok
      subst hok
      constructor
      · exact List.sorted_insertionSort _ _
      · intro p hp
        have hp2 : p ∈ comps.map (relPathString sep) :=
          (List.perm_insertionSort _ _).mem_iff.mp hp
        obtain ⟨cs, _, rfl⟩ := List.mem_map.mp hp2
        exact relPathString_no_backslash sep cs

/-- C8 (witness): the scenario listing, produced with a backslash host
separator, is sorted and slash-normalized. -/
theorem scanner_sorted_slash_normalized_witness :
    List.Sorted (fun a b : String => a ≤ b) ["notes/a.md"]
  ∧ ∀ p ∈ ["notes/a.md"], ∀ c ∈ p.data, c ≠ '\\' :=
  scanner_sorted_slash_normalized '\\' (some demoWorkspace) ["notes/a.md"] rfl

/-- C9 (witness): a missing file at a concrete path, in a scan and in the
watcher pipeline. -/
theorem classifier_read_failure_false_witness :
    demoFs ["ws", "gone.md"] = none
  ∧ (processPath '/' demoFs ["ws"] ∅ .create ["ws", "gone.md"]).1 = none
  ∧ (processPath '/' demoFs ["ws"] ∅ .modify ["ws", "gone.md"]).1 = none := by
  refine ⟨by decide, ?_, ?_⟩
  · exact (classifier_read_failure_false.2.2 '/' demoFs ["ws"] ∅ ["ws", "gone.md"] (by decide)).1
  · exact (classifier_read_failure_false.2.2 '/' demoFs ["ws"] ∅ ["ws", "gone.md"] (by decide)).2

end Strata
